import Mathlib

/-!
Verification development for the doc-update-agent pipeline orchestrator.

Python strings are modelled as `List Char`.  Python's substring test
`pat in s` is modelled by `strIn`, `s.startswith p` by `List.isPrefixOf`,
`s.lower()` by mapping `Char.toLower`, and `re.sub` over the pattern
`[^a-z0-9]+` by mapping non-alphanumerics to a hyphen and collapsing
hyphen runs.  Fallible engine phases are modelled with `Except`.
-/

set_option maxRecDepth 10000

namespace DocUpdater

/-- Python `s.lower()` restricted to the ASCII range, as used on the paths
and result texts handled by the orchestrator. -/
def pyLower (s : List Char) : List Char := s.map Char.toLower

/-- Python substring containment `pat in s`. -/
def strIn (pat : List Char) (s : List Char) : Bool :=
  pat.isPrefixOf s ||
    match s with
    | [] => false
    | _ :: rest => strIn pat rest

theorem strIn_correct (pat s : List Char) : strIn pat s = true ↔ pat <:+: s := by
  induction s with
  | nil =>
    simp [strIn, List.isPrefixOf_iff_prefix, List.infix_nil, List.prefix_nil]
  | cons c rest ih =>
    rw [List.infix_cons_iff]
    simp [strIn, List.isPrefixOf_iff_prefix, ih]

theorem strIn_of_middle (pat pre suf : List Char) :
    strIn pat (pre ++ pat ++ suf) = true := by
  rw [strIn_correct]
  exact ⟨pre, suf, rfl⟩

/-! ## Verification-result parsing (`orchestrator._verification_passed`) -/

/-- Source: `_verification_passed` in `orchestrator.py`.  Lowercases the
result text, passes on an explicit overall-status pass marker, fails on an
explicit fail marker, and fails when no marker is found. -/
def verification_passed (result_text : List Char) : Bool :=
  let lower := pyLower result_text
  if strIn ("\"overall_status\": \"pass\"").data lower ||
     strIn ("\"overall_status\":\"pass\"").data lower then
    true
  else if strIn ("\"overall_status\": \"fail\"").data lower ||
          strIn ("\"overall_status\":\"fail\"").data lower then
    false
  else
    false

/-- Abbreviation: the text carries an explicit overall-status pass marker
(after lowercasing, with or without a space after the colon). -/
def hasPassMarker (t : List Char) : Bool :=
  strIn ("\"overall_status\": \"pass\"").data (pyLower t) ||
  strIn ("\"overall_status\":\"pass\"").data (pyLower t)

/-- Abbreviation: the text carries an explicit overall-status fail marker. -/
def hasFailMarker (t : List Char) : Bool :=
  strIn ("\"overall_status\": \"fail\"").data (pyLower t) ||
  strIn ("\"overall_status\":\"fail\"").data (pyLower t)

theorem verification_passed_iff (t : List Char) :
    verification_passed t = true ↔ hasPassMarker t = true := by
  unfold verification_passed hasPassMarker
  by_cases h : (strIn ("\"overall_status\": \"pass\"").data (pyLower t) ||
      strIn ("\"overall_status\":\"pass\"").data (pyLower t)) = true
  · simp [h]
  · simp only [Bool.not_eq_true] at h
    simp [h]

/-! ## Write-Boundary Guard (`permissions.py`) -/

/-- Source: `SENSITIVE_PATTERNS` in `permissions.py`. -/
def SENSITIVE_PATTERNS : List (List Char) :=
  [(".env").data, ("credentials").data, ("secret").data,
   (".ssh").data, (".key").data, (".pem").data]

/-- Result of the `can_use_tool` callback: allow carries the (unchanged)
input dictionary, deny carries the human-readable message. -/
inductive PermissionResult where
  | allow (updated_input : List (List Char × List Char))
  | deny (message : List Char)
  deriving DecidableEq

/-- Python `input_data.get(key, "")` over an association-list model of the
tool-input dictionary. -/
def dictGet (input_data : List (List Char × List Char)) (key : List Char) : List Char :=
  (input_data.lookup key).getD []

/-- Source: the `can_use_tool` closure built by `create_permission_handler`
in `permissions.py`.  Write/Edit must target a path starting with the docs
repo and avoiding every sensitive pattern; every other tool is allowed with
its input unchanged. -/
def can_use_tool (docs_repo : List Char) (tool_name : List Char)
    (input_data : List (List Char × List Char)) : PermissionResult :=
  if tool_name = ("Write").data ∨ tool_name = ("Edit").data then
    let file_path := dictGet input_data ("file_path").data
    if ¬ (docs_repo.isPrefixOf file_path) then
      .deny (("Write/Edit only allowed in docs repo (").data ++ docs_repo ++
             ("). Attempted: ").data ++ file_path)
    else if SENSITIVE_PATTERNS.any (fun p => strIn p (pyLower file_path)) then
      .deny (("Cannot write to sensitive file: ").data ++ file_path)
    else
      .allow input_data
  else
    .allow input_data

/-! ## Command Safety Filter (`hooks.py`) -/

/-- Source: `DANGEROUS_PATTERNS` in `hooks.py`. -/
def DANGEROUS_PATTERNS : List (List Char) :=
  [("rm -rf /").data, ("rm -rf ~").data, ("sudo rm").data,
   ("> /dev/sda").data, ("mkfs").data, ("dd if=").data,
   (":()\x7b:|:&\x7d;:").data]

/-- Outcome of a PreToolUse hook: an empty dict (no opinion) or a deny
decision with its reason. -/
inductive HookDecision where
  | noOpinion
  | deny (reason : List Char)
  deriving DecidableEq

/-- Source: `block_dangerous_bash` in `hooks.py`.  Non-Bash tools pass
through; a Bash command is denied on the first dangerous pattern it
contains, with the pattern reported in the reason. -/
def block_dangerous_bash (tool_name : List Char) (command : List Char) : HookDecision :=
  if tool_name ≠ ("Bash").data then .noOpinion
  else
    match DANGEROUS_PATTERNS.find? (fun p => strIn p command) with
    | some p => .deny (("Blocked dangerous pattern: ").data ++ p)
    | none => .noOpinion

/-! ## Sandbox teardown (`tools.teardown_verification_env`) -/

/-- Outcome of the `subprocess.run(["docker", "stop", id], timeout=30)`
call: it completed with some exit code, exceeded its timeout, or the
docker binary was missing. -/
inductive ProcOutcome where
  | completed (exitCode : Int)
  | timedOut
  | notFound
  deriving DecidableEq

/-- Exceptions that can escape `teardown_verification_env`. -/
inductive PyExc where
  | timeoutExpired
  | fileNotFoundError
  deriving DecidableEq

/-- Source: `teardown_verification_env` in `tools.py`.  The docker branch
runs `docker stop` with a 30s timeout and no exception handler, so a
timeout or missing binary propagates; the tmpdir branch uses
`shutil.rmtree(..., ignore_errors=True)`, so a deletion failure
(`rmtreeError`) never affects the result; any other `env_type` falls
through both branches.  On every non-raising path the tool returns the
fixed success text. -/
def teardown_verification_env (env_type : List Char) (_env_id : List Char)
    (dockerStop : ProcOutcome) (_rmtreeError : Bool) : Except PyExc (List Char) :=
  if env_type = ("docker").data then
    match dockerStop with
    | .completed _ => .ok (("Environment cleaned up.").data)
    | .timedOut => .error .timeoutExpired
    | .notFound => .error .fileNotFoundError
  else if env_type = ("tmpdir").data then
    .ok (("Environment cleaned up.").data)
  else
    .ok (("Environment cleaned up.").data)

/-! ## Branch-name derivation (`orchestrator._build_branch_name`) -/

/-- Character class of the regex `[a-z0-9]` (the complement of the
substituted class `[^a-z0-9]`). -/
def isLowerAlnum (c : Char) : Bool :=
  (('a' ≤ c) && (c ≤ 'z')) || (('0' ≤ c) && (c ≤ '9'))

/-- Collapse every run of hyphens to a single hyphen. -/
def dedupDash : List Char → List Char
  | [] => []
  | [a] => [a]
  | a :: b :: rest =>
    if a = '-' ∧ b = '-' then dedupDash (b :: rest)
    else a :: dedupDash (b :: rest)

/-- Semantics of `re.sub(r"[^a-z0-9]+", "-", s)`: every maximal run of
characters outside `[a-z0-9]` becomes a single hyphen. -/
def subNonAlnum (s : List Char) : List Char :=
  dedupDash (s.map (fun c => if isLowerAlnum c then c else '-'))

/-- Python `s.strip("-")`. -/
def pyStripDash (s : List Char) : List Char :=
  ((s.dropWhile (fun c => c = '-')).reverse.dropWhile (fun c => c = '-')).reverse

/-- Python `s.removesuffix(suf)` for a non-empty `suf`. -/
def pyRemovesuffix (suf : List Char) (s : List Char) : List Char :=
  if suf.reverse.isPrefixOf s.reverse then s.take (s.length - suf.length) else s

/-- Python `s.rsplit("/", 1)[-1]`: the part after the last slash. -/
def afterLastSlash (s : List Char) : List Char :=
  (s.reverse.takeWhile (fun c => c ≠ '/')).reverse

/-- Decimal rendering of the `int(time.time())` timestamp, as interpolated
by the f-string. -/
def natChars (n : Nat) : List Char := (Nat.repr n).data

/-- Slug computed from user context: first 60 characters, lowercased,
non-alphanumeric runs collapsed to hyphens, hyphens trimmed. -/
def contextSlug (ctx : List Char) : List Char :=
  pyStripDash (subNonAlnum (pyLower (ctx.take 60)))

/-- Slug computed from the first three target doc files (basename with a
`.md` or `.rst` extension stripped), falling back to a generic word. -/
def fileSlug (target_doc_files : List (List Char)) : List Char :=
  let file_slugs := (target_doc_files.take 3).map
    (fun f => pyRemovesuffix (".rst").data (pyRemovesuffix (".md").data (afterLastSlash f)))
  if file_slugs = [] then ("update").data
  else List.intercalate ("-").data file_slugs

/-- Everything of the branch name that precedes the final hyphen and the
timestamp. -/
def branchStem (user_context : Option (List Char)) (target_doc_files : List (List Char)) : List Char :=
  if (user_context.getD []) ≠ [] then
    ("agent/docs/").data ++ contextSlug (user_context.getD [])
  else
    ("agent/docs/").data ++ fileSlug target_doc_files

/-- Source: `_build_branch_name` in `orchestrator.py`, with the
`int(time.time())` timestamp passed in explicitly. -/
def build_branch_name (user_context : Option (List Char))
    (target_doc_files : List (List Char)) (timestamp : Nat) : List Char :=
  if (user_context.getD []) ≠ [] then
    ("agent/docs/").data ++ contextSlug (user_context.getD []) ++
      ("-").data ++ natChars timestamp
  else
    ("agent/docs/").data ++ fileSlug target_doc_files ++
      ("-").data ++ natChars timestamp

/-! ## Update-prompt construction and the iteration loop
(`orchestrator.run_pipeline`, phase 2 + 3 loop) -/

/-- The static part of each loop iteration's `update_prompt`: the base
instruction plus the developer-context block when user context is
present. -/
def update_prompt_base (docs_repo_path : List Char)
    (user_context : Option (List Char)) : List Char :=
  if (user_context.getD []) ≠ [] then
    ("Use the doc-updater agent to update the documentation files in ").data ++
      docs_repo_path ++ (" based on the analysis report above.").data ++
      ("\n\nDEVELOPER CONTEXT (prioritize these areas):\n").data ++ user_context.getD []
  else
    ("Use the doc-updater agent to update the documentation files in ").data ++
      docs_repo_path ++ (" based on the analysis report above.").data

/-- Source: the `update_prompt` built in each loop iteration of
`run_pipeline`: base instruction, optional developer-context block,
optional previous-failure block, optional dry-run block. -/
def update_prompt_text (docs_repo_path : List Char) (user_context : Option (List Char))
    (dry_run : Bool) (feedback : List Char) : List Char :=
  let withFb :=
    if feedback ≠ [] then
      update_prompt_base docs_repo_path user_context ++
        ("\n\nPREVIOUS VERIFICATION FAILED. Here is the failure report that must be addressed:\n").data ++
        feedback
    else update_prompt_base docs_repo_path user_context
  if dry_run then
    withFb ++ ("\n\nDRY RUN MODE: Show what changes you would make but do NOT actually write any files.").data
  else withFb

/-- Observable state of the phase 2 + 3 loop: the final `iterations_used`
counter, the last `verify_result`, and the update prompts issued, in
order. -/
structure LoopResult where
  iterations_used : Nat
  verify_result : List Char
  update_prompts : List (List Char)
  deriving DecidableEq

/-- Source: the `for iteration in range(config.max_iterations)` loop of
`run_pipeline`, indexed by the number of `remaining` iterations (so the
current loop variable is `iteration` and `remaining + iteration` equals
`max_iterations`).  `verify k` is the text collected from the k-th verify
phase (0-based); `mk fb` is the update prompt built from the feedback
`fb` held in `verification_failure_context`; `itUsed` is the value of
`iterations_used` entering the step.  A passing verify breaks the loop; a
failing one stores its text as feedback for the next prompt. -/
def pipelineLoopAux (verify : Nat → List Char) (mk : List Char → List Char) :
    Nat → Nat → Nat → List Char → List Char → LoopResult
  | 0, _, itUsed, _, vres => ⟨itUsed, vres, []⟩
  | remaining + 1, iteration, _, feedback, _ =>
    let prompt := mk feedback
    let r := verify iteration
    if verification_passed r then
      ⟨iteration + 1, r, [prompt]⟩
    else
      let s := pipelineLoopAux verify mk remaining (iteration + 1) (iteration + 1) r r
      ⟨s.iterations_used, s.verify_result, prompt :: s.update_prompts⟩

/-- The loop as entered by `run_pipeline`: iteration counter 0,
`iterations_used = 0`, empty feedback, empty `verify_result`. -/
def pipelineLoop (verify : Nat → List Char) (mk : List Char → List Char)
    (maxIter : Nat) : LoopResult :=
  pipelineLoopAux verify mk maxIter 0 0 [] []

/-- Source: `final_status = "verified" if _verification_passed(verify_result)
else "best_effort"` at the end of `run_pipeline`. -/
def final_status_of (verify_result : List Char) : List Char :=
  if verification_passed verify_result then ("verified").data else ("best_effort").data

/-! ## Fallible run model (`run_pipeline` with its except handlers)

The engine session is a sequence of query/collect pairs; `resp q` is the
outcome of the q-th `_collect_result` call, either collected text or one
of the four SDK exceptions.  The except handlers at the bottom of
`run_pipeline` map each exception to a distinct `SystemExit` code.  An
error outcome carries the exit code together with the number of queries
that had been issued when the run aborted; a normal outcome carries the
constructed `PipelineResult` and the total number of queries issued. -/

/-- The SDK exception taxonomy caught by `run_pipeline`, most specific
first, exactly as in the source's `except` clauses. -/
inductive SDKErr where
  | cliNotFound
  | processError
  | cliJSONDecodeError
  | sdkError
  deriving DecidableEq

/-- Source: the four `raise SystemExit(n)` handlers of `run_pipeline`. -/
def exitCodeOf : SDKErr → Nat
  | .cliNotFound => 1
  | .processError => 2
  | .cliJSONDecodeError => 3
  | .sdkError => 4

/-- Shallow model of the `PipelineResult` dataclass (`models.py`),
restricted to the fields `run_pipeline` fills in. -/
structure PipelineResultM where
  analysis : List Char
  update : List Char
  verification : List Char
  pr_diff : List Char
  iterations_used : Nat
  final_status : List Char
  deriving DecidableEq

/-- The phase 2 + 3 loop with fallible phases.  Returns the updated
`iterations_used`, the next query index, and the last `update_result` and
`verify_result`; an engine exception anywhere aborts the run (it carries
the exception and the number of queries issued so far). -/
def runLoopE (resp : Nat → Except SDKErr (List Char)) :
    Nat → Nat → Nat → Nat → List Char → List Char →
    Except (SDKErr × Nat) (Nat × Nat × List Char × List Char)
  | 0, _, itUsed, qi, upd, vres => .ok (itUsed, qi, upd, vres)
  | remaining + 1, iteration, _, qi, _, _ =>
    match resp qi with
    | .error e => .error (e, qi + 1)
    | .ok u =>
      match resp (qi + 1) with
      | .error e => .error (e, qi + 2)
      | .ok v =>
        if verification_passed v then
          .ok (iteration + 1, qi + 2, u, v)
        else
          runLoopE resp remaining (iteration + 1) (iteration + 1) (qi + 2) u v

/-- The create-working-branch step of `run_pipeline`: skipped entirely in
dry-run mode, otherwise one query/collect whose failure aborts the run.
Returns the next query index. -/
def branchStep (dry_run : Bool) (resp : Nat → Except SDKErr (List Char)) :
    Except (SDKErr × Nat) Nat :=
  if dry_run then .ok 1
  else
    match resp 1 with
    | .error e => .error (e, 2)
    | .ok _ => .ok 2

/-- Source: `run_pipeline` in `orchestrator.py`.  Query 0 is the analyze
phase; query 1 (skipped when `dry_run`) creates the working branch; then
the update/verify loop consumes two queries per iteration; after the loop
(unless `dry_run`) one query commits and collects the diff and, when
`create_pr`, one more creates the PR.  Every SDK exception is caught at
the very end and mapped to a `SystemExit` code — no cleanup of any kind
runs between the failing phase and the exit. -/
def run_pipelineE (dry_run create_pr : Bool) (maxIter : Nat)
    (resp : Nat → Except SDKErr (List Char)) :
    Except (Nat × Nat) (PipelineResultM × Nat) :=
  match resp 0 with
  | .error e => .error (exitCodeOf e, 1)
  | .ok analysis =>
    match branchStep dry_run resp with
    | .error (e, q) => .error (exitCodeOf e, q)
    | .ok q1 =>
      match runLoopE resp maxIter 0 0 q1 [] [] with
      | .error (e, q) => .error (exitCodeOf e, q)
      | .ok (itUsed, q2, upd, vres) =>
        if dry_run then
          .ok (⟨analysis, upd, vres, [], itUsed, final_status_of vres⟩, q2)
        else
          match resp q2 with
          | .error e => .error (exitCodeOf e, q2 + 1)
          | .ok diff =>
            if create_pr then
              match resp (q2 + 1) with
              | .error e => .error (exitCodeOf e, q2 + 2)
              | .ok _ => .ok (⟨analysis, upd, vres, diff, itUsed, final_status_of vres⟩, q2 + 2)
            else
              .ok (⟨analysis, upd, vres, diff, itUsed, final_status_of vres⟩, q2 + 1)

/-! ## Loop lemmas -/

theorem pipelineLoopAux_succ (verify : Nat → List Char) (mk : List Char → List Char)
    (r iteration itUsed : Nat) (fb v : List Char) :
    pipelineLoopAux verify mk (r + 1) iteration itUsed fb v =
      if verification_passed (verify iteration) then
        ⟨iteration + 1, verify iteration, [mk fb]⟩
      else
        ⟨(pipelineLoopAux verify mk r (iteration + 1) (iteration + 1)
            (verify iteration) (verify iteration)).iterations_used,
         (pipelineLoopAux verify mk r (iteration + 1) (iteration + 1)
            (verify iteration) (verify iteration)).verify_result,
         mk fb :: (pipelineLoopAux verify mk r (iteration + 1) (iteration + 1)
            (verify iteration) (verify iteration)).update_prompts⟩ := rfl

theorem pipelineLoopAux_itUsed_le (verify : Nat → List Char) (mk : List Char → List Char) :
    ∀ remaining iteration fb v,
      (pipelineLoopAux verify mk remaining iteration iteration fb v).iterations_used ≤
        iteration + remaining := by
  intro remaining
  induction remaining with
  | zero => intro iteration fb v; exact Nat.le_add_right iteration 0
  | succ r ih =>
    intro iteration fb v
    rw [pipelineLoopAux_succ]
    by_cases hp : verification_passed (verify iteration) = true
    · rw [if_pos hp]
      show iteration + 1 ≤ iteration + (r + 1)
      omega
    · rw [if_neg hp]
      show (pipelineLoopAux verify mk r (iteration + 1) (iteration + 1)
          (verify iteration) (verify iteration)).iterations_used ≤ iteration + (r + 1)
      have := ih (iteration + 1) (verify iteration) (verify iteration)
      omega

theorem pipelineLoopAux_all_fail (verify : Nat → List Char) (mk : List Char → List Char) :
    ∀ remaining iteration fb v,
      (∀ j, iteration ≤ j → j < iteration + remaining + 1 →
        verification_passed (verify j) = false) →
      (pipelineLoopAux verify mk (remaining + 1) iteration iteration fb v).iterations_used =
          iteration + remaining + 1 ∧
        (pipelineLoopAux verify mk (remaining + 1) iteration iteration fb v).verify_result =
          verify (iteration + remaining) := by
  intro remaining
  induction remaining with
  | zero =>
    intro iteration fb v hfail
    have h0 : verification_passed (verify iteration) = false :=
      hfail iteration le_rfl (by omega)
    rw [pipelineLoopAux_succ, if_neg (by simp [h0])]
    exact ⟨rfl, rfl⟩
  | succ r ih =>
    intro iteration fb v hfail
    have h0 : verification_passed (verify iteration) = false :=
      hfail iteration le_rfl (by omega)
    have hrest := ih (iteration + 1) (verify iteration) (verify iteration)
      (fun j h1 h2 => hfail j (by omega) (by omega))
    rw [pipelineLoopAux_succ, if_neg (by simp [h0])]
    constructor
    · show (pipelineLoopAux verify mk (r + 1) (iteration + 1) (iteration + 1)
          (verify iteration) (verify iteration)).iterations_used = iteration + (r + 1) + 1
      rw [hrest.1]; omega
    · show (pipelineLoopAux verify mk (r + 1) (iteration + 1) (iteration + 1)
          (verify iteration) (verify iteration)).verify_result = verify (iteration + (r + 1))
      rw [hrest.2]
      congr 1
      omega

theorem pipelineLoopAux_first_pass (verify : Nat → List Char) (mk : List Char → List Char) :
    ∀ remaining iteration fb v k,
      iteration ≤ k → k < iteration + remaining →
      verification_passed (verify k) = true →
      (∀ j, iteration ≤ j → j < k → verification_passed (verify j) = false) →
      (pipelineLoopAux verify mk remaining iteration iteration fb v).iterations_used = k + 1 ∧
        (pipelineLoopAux verify mk remaining iteration iteration fb v).verify_result =
          verify k := by
  intro remaining
  induction remaining with
  | zero => intro iteration fb v k h1 h2 _ _; omega
  | succ r ih =>
    intro iteration fb v k h1 h2 hpass hfail
    by_cases heq : iteration = k
    · subst heq
      rw [pipelineLoopAux_succ, if_pos hpass]
      exact ⟨rfl, rfl⟩
    · have h0 : verification_passed (verify iteration) = false :=
        hfail iteration le_rfl (by omega)
      have hrest := ih (iteration + 1) (verify iteration) (verify iteration) k
        (by omega) (by omega) hpass (fun j ha hb => hfail j (by omega) hb)
      rw [pipelineLoopAux_succ, if_neg (by simp [h0])]
      exact hrest

theorem pipelineLoopAux_prompts_length (verify : Nat → List Char) (mk : List Char → List Char) :
    ∀ remaining iteration fb v,
      (pipelineLoopAux verify mk remaining iteration iteration fb v).update_prompts.length +
          iteration =
        (pipelineLoopAux verify mk remaining iteration iteration fb v).iterations_used := by
  intro remaining
  induction remaining with
  | zero => intro iteration fb v; exact Nat.zero_add iteration
  | succ r ih =>
    intro iteration fb v
    rw [pipelineLoopAux_succ]
    by_cases hp : verification_passed (verify iteration) = true
    · rw [if_pos hp]
      show 1 + iteration = iteration + 1
      omega
    · rw [if_neg hp]
      show (pipelineLoopAux verify mk r (iteration + 1) (iteration + 1)
            (verify iteration) (verify iteration)).update_prompts.length + 1 + iteration =
          (pipelineLoopAux verify mk r (iteration + 1) (iteration + 1)
            (verify iteration) (verify iteration)).iterations_used
      have := ih (iteration + 1) (verify iteration) (verify iteration)
      omega

theorem pipelineLoopAux_prompts_get (verify : Nat → List Char) (mk : List Char → List Char) :
    ∀ remaining iteration fb v k p,
      (pipelineLoopAux verify mk remaining iteration iteration fb v).update_prompts.get? k =
        some p →
      p = mk (if k = 0 then fb else verify (iteration + k - 1)) := by
  intro remaining
  induction remaining with
  | zero =>
    intro iteration fb v k p h
    exact absurd h (by simp [pipelineLoopAux])
  | succ r ih =>
    intro iteration fb v k p h
    rw [pipelineLoopAux_succ] at h
    by_cases hp : verification_passed (verify iteration) = true
    · rw [if_pos hp] at h
      match k with
      | 0 =>
        have h' : some (mk fb) = some p := h
        simp only [Option.some.injEq] at h'
        simp [← h']
      | k' + 1 =>
        have h' : (List.get? ([] : List (List Char)) k') = some p := h
        simp at h'
    · rw [if_neg hp] at h
      match k with
      | 0 =>
        have h' : some (mk fb) = some p := h
        simp only [Option.some.injEq] at h'
        simp [← h']
      | k' + 1 =>
        have h' : (pipelineLoopAux verify mk r (iteration + 1) (iteration + 1)
            (verify iteration) (verify iteration)).update_prompts.get? k' = some p := h
        have hind := ih (iteration + 1) (verify iteration) (verify iteration) k' p h'
        match k' with
        | 0 => simpa using hind
        | m + 1 =>
          simp only [Nat.succ_ne_zero, if_false] at hind ⊢
          have harith : iteration + 1 + (m + 1) - 1 = iteration + (m + 1 + 1) - 1 := by omega
          rw [harith] at hind
          exact hind

/-! ## Claim theorems -/

/-- C1: for every configured `max_iterations = N`, the pipeline executes at
most `N` UPDATE/VERIFY cycles (the number of update prompts issued equals
`iterations_used ≤ N`); when the k-th VERIFY (1-based, so stream index
`k-1`) is the first to parse as PASS, the loop stops there with
`iterations_used = k` and `final_status = "verified"`; when all `N`
verifies fail, `iterations_used = N` and `final_status = "best_effort"`. -/
theorem C1_iteration_budget (verify : Nat → List Char) (mk : List Char → List Char) (N : Nat) :
    (pipelineLoop verify mk N).iterations_used ≤ N ∧
    (pipelineLoop verify mk N).update_prompts.length =
      (pipelineLoop verify mk N).iterations_used ∧
    (∀ k, k < N → verification_passed (verify k) = true →
      (∀ j, j < k → verification_passed (verify j) = false) →
      (pipelineLoop verify mk N).iterations_used = k + 1 ∧
        final_status_of (pipelineLoop verify mk N).verify_result = ("verified").data) ∧
    ((∀ j, j < N → verification_passed (verify j) = false) →
      (pipelineLoop verify mk N).iterations_used = N ∧
        final_status_of (pipelineLoop verify mk N).verify_result = ("best_effort").data) := by
  refine ⟨?_, ?_, ?_, ?_⟩
  · simpa [pipelineLoop] using pipelineLoopAux_itUsed_le verify mk N 0 [] []
  · have := pipelineLoopAux_prompts_length verify mk N 0 [] []
    simpa [pipelineLoop] using this
  · intro k hk hpass hfail
    have h := pipelineLoopAux_first_pass verify mk N 0 [] [] k (Nat.zero_le k)
      (by omega) hpass (fun j _ hb => hfail j hb)
    refine ⟨h.1, ?_⟩
    show final_status_of (pipelineLoopAux verify mk N 0 0 [] []).verify_result = _
    rw [h.2]
    simp [final_status_of, hpass]
  · intro hfail
    match N with
    | 0 => exact ⟨rfl, rfl⟩
    | M + 1 =>
      have h := pipelineLoopAux_all_fail verify mk M 0 [] []
        (fun j _ hb => hfail j (by omega))
      simp only [Nat.zero_add] at h
      refine ⟨h.1, ?_⟩
      show final_status_of (pipelineLoopAux verify mk (M + 1) 0 0 [] []).verify_result = _
      rw [h.2]
      simp [final_status_of, hfail M (by omega)]

/-- Verify stream used by the C1 witness: the second verify passes. -/
def c1verify : Nat → List Char :=
  fun k => if k = 1 then ("\"overall_status\": \"pass\"").data else ("still broken").data

/-- Witness for C1: with `max_iterations = 3` and a stream whose second
verify passes, the loop stops after exactly 2 cycles with status
`verified`. -/
theorem C1_iteration_budget_witness :
    (pipelineLoop c1verify (fun fb => fb) 3).iterations_used = 1 + 1 ∧
      final_status_of (pipelineLoop c1verify (fun fb => fb) 3).verify_result =
        ("verified").data :=
  (C1_iteration_budget c1verify (fun fb => fb) 3).2.2.1 1 (by decide) (by decide)
    (fun j hj => by
      have hj0 : j = 0 := by omega
      subst hj0
      decide)

/-- C2 (corrected): the parse returns PASS iff the text contains an
explicit overall-status pass marker; a text with a fail marker and no pass
marker, and a text with no recognizable marker at all, are both treated as
FAIL.  (The unamended claim — any text containing a fail marker is FAIL —
is refuted by `C2_fail_closed_counterexample`: the pass marker is checked
first.) -/
theorem C2_fail_closed (t : List Char) :
    (verification_passed t = true ↔ hasPassMarker t = true) ∧
    (hasFailMarker t = true → hasPassMarker t = false → verification_passed t = false) ∧
    (hasPassMarker t = false → hasFailMarker t = false → verification_passed t = false) := by
  refine ⟨verification_passed_iff t, ?_, ?_⟩
  · intro _ hnp
    have := verification_passed_iff t
    rcases hb : verification_passed t with _ | _
    · rfl
    · rw [this.mp hb] at hnp
      exact absurd hnp (by simp)
  · intro hnp _
    rcases hb : verification_passed t with _ | _
    · rfl
    · rw [(verification_passed_iff t).mp hb] at hnp
      exact absurd hnp (by simp)

/-- Counterexample to C2 as stated: a result text that carries an explicit
fail marker for the overall status is nevertheless parsed as PASS, because
it also carries a pass marker and the pass check runs first. -/
theorem C2_fail_closed_counterexample :
    hasFailMarker (("\"overall_status\": \"pass\" \"overall_status\": \"fail\"").data) = true ∧
      verification_passed
        (("\"overall_status\": \"pass\" \"overall_status\": \"fail\"").data) = true := by
  decide

/-- Witness for C2: a pure fail report is parsed as FAIL. -/
theorem C2_fail_closed_witness :
    verification_passed (("\"overall_status\": \"fail\"").data) = false :=
  (C2_fail_closed (("\"overall_status\": \"fail\"").data)).2.1 (by decide) (by decide)

/-- C3: for Write/Edit targets the guard allows exactly the paths that
start with the configured docs-repo root and whose lowercased form
contains no sensitive substring; `<docs_root>/guide.md` is allowed while
`<docs_root>/.env` and `/etc/passwd` are denied with a reason message. -/
theorem C3_write_boundary (docs_repo tool : List Char)
    (input : List (List Char × List Char))
    (htool : tool = ("Write").data ∨ tool = ("Edit").data) :
    (can_use_tool docs_repo tool input = .allow input ↔
      (docs_repo <+: dictGet input ("file_path").data ∧
        ∀ p ∈ SENSITIVE_PATTERNS, ¬ p <:+: pyLower (dictGet input ("file_path").data))) ∧
    can_use_tool ("/home/user/docs").data ("Write").data
        [(("file_path").data, ("/home/user/docs/guide.md").data)] =
      .allow [(("file_path").data, ("/home/user/docs/guide.md").data)] ∧
    (∃ m, can_use_tool ("/home/user/docs").data ("Write").data
        [(("file_path").data, ("/home/user/docs/.env").data)] = .deny m) ∧
    (∃ m, can_use_tool ("/home/user/docs").data ("Write").data
        [(("file_path").data, ("/etc/passwd").data)] = .deny m) := by
  refine ⟨?_, by decide,
    ⟨(("Cannot write to sensitive file: /home/user/docs/.env").data), by decide⟩,
    ⟨(("Write/Edit only allowed in docs repo (/home/user/docs). Attempted: /etc/passwd").data),
      by decide⟩⟩
  unfold can_use_tool
  rw [if_pos htool]
  by_cases hpre : docs_repo.isPrefixOf (dictGet input ("file_path").data)
  · rw [if_neg (by simp [hpre])]
    by_cases hsens : SENSITIVE_PATTERNS.any
        (fun p => strIn p (pyLower (dictGet input ("file_path").data))) = true
    · rw [if_pos hsens]
      simp only [List.any_eq_true] at hsens
      obtain ⟨p, hmem, hin⟩ := hsens
      constructor
      · intro hcon; exact absurd hcon (by simp)
      · rintro ⟨-, hall⟩
        exact absurd ((strIn_correct p _).mp hin) (hall p hmem)
    · rw [if_neg hsens]
      simp only [List.any_eq_true, not_exists] at hsens
      push_neg at hsens
      constructor
      · intro _
        refine ⟨List.isPrefixOf_iff_prefix.mp hpre, fun p hmem hin => ?_⟩
        exact absurd ((strIn_correct p _).mpr hin) (by simpa using hsens p hmem)
      · intro _; rfl
  · rw [if_pos (by simpa using hpre)]
    constructor
    · intro hcon; exact absurd hcon (by simp)
    · rintro ⟨hp, -⟩
      exact absurd ( List.isPrefixOf_iff_prefix.mpr hp) hpre

/-- Witness for C3: the guard instantiated at a concrete Write call. -/
theorem C3_write_boundary_witness :
    (can_use_tool ("/d").data ("Write").data
        [(("file_path").data, ("/d/a.md").data)] =
          .allow [(("file_path").data, ("/d/a.md").data)] ↔
      (("/d").data <+: dictGet [(("file_path").data, ("/d/a.md").data)] ("file_path").data ∧
        ∀ p ∈ SENSITIVE_PATTERNS,
          ¬ p <:+: pyLower
            (dictGet [(("file_path").data, ("/d/a.md").data)] ("file_path").data))) ∧
    can_use_tool ("/home/user/docs").data ("Write").data
        [(("file_path").data, ("/home/user/docs/guide.md").data)] =
      .allow [(("file_path").data, ("/home/user/docs/guide.md").data)] ∧
    (∃ m, can_use_tool ("/home/user/docs").data ("Write").data
        [(("file_path").data, ("/home/user/docs/.env").data)] = .deny m) ∧
    (∃ m, can_use_tool ("/home/user/docs").data ("Write").data
        [(("file_path").data, ("/etc/passwd").data)] = .deny m) :=
  C3_write_boundary ("/d").data ("Write").data
    [(("file_path").data, ("/d/a.md").data)] (Or.inl rfl)

theorem feedback_infix_update_prompt (docs : List Char) (ctx : Option (List Char))
    (dr : Bool) (fb : List Char) : fb <:+: update_prompt_text docs ctx dr fb := by
  by_cases hfb : fb = []
  · subst hfb
    exact List.nil_infix
  · by_cases hdr : dr = true
    · simp only [update_prompt_text, hfb, hdr, ne_eq, not_false_eq_true, ite_true, if_true]
      refine ⟨update_prompt_base docs ctx ++
          ("\n\nPREVIOUS VERIFICATION FAILED. Here is the failure report that must be addressed:\n").data,
        ("\n\nDRY RUN MODE: Show what changes you would make but do NOT actually write any files.").data,
        ?_⟩
      simp [List.append_assoc]
    · simp only [update_prompt_text, hfb, hdr, ne_eq, not_false_eq_true, ite_true, if_false,
        Bool.false_eq_true, ite_false]
      refine ⟨update_prompt_base docs ctx ++
          ("\n\nPREVIOUS VERIFICATION FAILED. Here is the failure report that must be addressed:\n").data,
        [], ?_⟩
      simp [List.append_assoc]

/-- C4 (amended): the UPDATE instruction of cycle 1 is built with no
feedback block, and the UPDATE instruction of cycle `k+2` (1-based
`k+2 > 1`) is exactly the static instruction text plus one feedback block
holding the verbatim verify text of cycle `k+1`, which it therefore
contains as a substring; it contains no feedback other than that of the
immediately preceding cycle.  (The unamended claim — the instruction never
contains the result text of cycle `k-2` or earlier — is refuted by
`C4_feedback_threading_counterexample`: when two cycles produce the same
result text, the later instruction necessarily contains the earlier
cycle's text.) -/
theorem C4_feedback_threading (docs : List Char) (ctx : Option (List Char)) (dr : Bool)
    (verify : Nat → List Char) (N k : Nat) :
    (∀ p, (pipelineLoop verify (update_prompt_text docs ctx dr) N).update_prompts.get? 0 =
        some p → p = update_prompt_text docs ctx dr []) ∧
    (∀ p, (pipelineLoop verify (update_prompt_text docs ctx dr) N).update_prompts.get? (k + 1) =
        some p →
      p = update_prompt_text docs ctx dr (verify k) ∧ verify k <:+: p) := by
  constructor
  · intro p h
    have := pipelineLoopAux_prompts_get verify (update_prompt_text docs ctx dr) N 0 [] [] 0 p h
    simpa using this
  · intro p h
    have hget := pipelineLoopAux_prompts_get verify (update_prompt_text docs ctx dr)
      N 0 [] [] (k + 1) p h
    simp only [Nat.succ_ne_zero, if_false, Nat.zero_add, Nat.add_sub_cancel] at hget
    refine ⟨hget, ?_⟩
    rw [hget]
    exact feedback_infix_update_prompt docs ctx dr (verify k)

/-- Witness for C4: with a constant failing verify stream, the second
update prompt (cycle 2) is the prompt built from the first verify text and
contains it verbatim. -/
theorem C4_feedback_threading_witness :
    update_prompt_text ("/docs").data none false (("B").data) =
        update_prompt_text ("/docs").data none false ((fun _ : Nat => ("B").data) 0) ∧
      (fun _ : Nat => ("B").data) 0 <:+:
        update_prompt_text ("/docs").data none false (("B").data) :=
  (C4_feedback_threading ("/docs").data none false (fun _ => ("B").data) 2 0).2
    (update_prompt_text ("/docs").data none false (("B").data)) (by rfl)

/-- Counterexample to C4 as stated: with `max_iterations = 3` and every
verify returning the same failing text `"B"`, three cycles run and the
UPDATE instruction of cycle 3 contains `"B"` — which is the
verification-result text of cycle 1, i.e. of cycle `k-2`. -/
theorem C4_feedback_threading_counterexample :
    (pipelineLoop (fun _ => ("B").data)
        (update_prompt_text ("/docs").data none false) 3).update_prompts.length = 3 ∧
      ("B").data <:+:
        (pipelineLoop (fun _ => ("B").data)
          (update_prompt_text ("/docs").data none false) 3).update_prompts.getD 2 [] := by
  refine ⟨rfl,
    ⟨(("Use the doc-updater agent to update the documentation files in /docs based on the analysis report above.\n\nPREVIOUS VERIFICATION FAILED. Here is the failure report that must be addressed:\n").data),
      [], ?_⟩⟩
  decide

/-- C6 (amended): teardown returns the fixed success text for a directory
handle regardless of deletion failures (`ignore_errors=True`), and for a
container handle whose `docker stop` completes with any exit code; but a
`docker stop` that exceeds its 30-second timeout, or a missing docker
binary, raises out of teardown instead of being swallowed.  (The unamended
claim — a hung container stop is swallowed too — is refuted by
`C6_teardown_swallow_counterexample`.) -/
theorem C6_teardown_swallow (env_id : List Char) (code : Int) (rmErr : Bool)
    (ds : ProcOutcome) :
    teardown_verification_env ("tmpdir").data env_id ds rmErr =
        .ok (("Environment cleaned up.").data) ∧
    teardown_verification_env ("docker").data env_id (.completed code) rmErr =
        .ok (("Environment cleaned up.").data) ∧
    teardown_verification_env ("docker").data env_id .timedOut rmErr =
        .error .timeoutExpired ∧
    teardown_verification_env ("docker").data env_id .notFound rmErr =
        .error .fileNotFoundError :=
  ⟨rfl, rfl, rfl, rfl⟩

/-- Counterexample to C6 as stated: a hung `docker stop` (timeout after 30
seconds) raises `subprocess.TimeoutExpired` out of
`teardown_verification_env` rather than being swallowed into a
success-shaped result. -/
theorem C6_teardown_swallow_counterexample :
    teardown_verification_env ("docker").data ("c123").data .timedOut false =
      .error .timeoutExpired := rfl

theorem block_dangerous_bash_on_bash (command : List Char) :
    block_dangerous_bash ("Bash").data command =
      match DANGEROUS_PATTERNS.find? (fun p => strIn p command) with
      | some p => .deny (("Blocked dangerous pattern: ").data ++ p)
      | none => .noOpinion := by
  unfold block_dangerous_bash
  rw [if_neg (by simp)]

theorem block_dangerous_bash_noOpinion_of_clean (command : List Char)
    (h : ∀ p ∈ DANGEROUS_PATTERNS, ¬ p <:+: command) :
    block_dangerous_bash ("Bash").data command = .noOpinion := by
  rw [block_dangerous_bash_on_bash]
  have hf : DANGEROUS_PATTERNS.find? (fun p => strIn p command) = none := by
    rw [List.find?_eq_none]
    intro p hp
    simp only [Bool.not_eq_true]
    rcases hb : strIn p command with _ | _
    · rfl
    · exact absurd ((strIn_correct p command).mp hb) (h p hp)
  rw [hf]

/-- C7: the Command Safety Filter denies a Bash command iff the command
contains one of the fixed destructive substring patterns, and the denial
reason names a pattern that matched; any command with `"rm -rf /"`
anywhere inside is denied, and a command containing none of the patterns
is passed through. -/
theorem C7_command_filter (command pre suf : List Char) :
    ((∃ r, block_dangerous_bash ("Bash").data command = .deny r) ↔
      ∃ p ∈ DANGEROUS_PATTERNS, p <:+: command) ∧
    (∀ r, block_dangerous_bash ("Bash").data command = .deny r →
      ∃ p ∈ DANGEROUS_PATTERNS, p <:+: command ∧
        r = ("Blocked dangerous pattern: ").data ++ p) ∧
    (∃ r, block_dangerous_bash ("Bash").data
        (pre ++ ("rm -rf /").data ++ suf) = .deny r) ∧
    ((∀ p ∈ DANGEROUS_PATTERNS, ¬ p <:+: command) →
      block_dangerous_bash ("Bash").data command = .noOpinion) := by
  have h3 : ∃ r, block_dangerous_bash ("Bash").data
      (pre ++ ("rm -rf /").data ++ suf) = .deny r := by
    rw [block_dangerous_bash_on_bash]
    rcases hf : DANGEROUS_PATTERNS.find?
        (fun p => strIn p (pre ++ ("rm -rf /").data ++ suf)) with _ | p
    · rw [List.find?_eq_none] at hf
      have hmid := strIn_of_middle (("rm -rf /").data) pre suf
      exact absurd hmid (by simpa using hf (("rm -rf /").data) (by decide))
    · exact ⟨_, rfl⟩
  rcases hf : DANGEROUS_PATTERNS.find? (fun p => strIn p command) with _ | q
  · have hnone := List.find?_eq_none.mp hf
    refine ⟨?_, ?_, h3, fun h => block_dangerous_bash_noOpinion_of_clean command h⟩
    · constructor
      · rintro ⟨r, hr⟩
        rw [block_dangerous_bash_on_bash, hf] at hr
        exact absurd hr (by simp)
      · rintro ⟨p, hmem, hinf⟩
        exact absurd ((strIn_correct p command).mpr hinf) (by simpa using hnone p hmem)
    · intro r hr
      rw [block_dangerous_bash_on_bash, hf] at hr
      exact absurd hr (by simp)
  · have hmem := List.mem_of_find?_eq_some hf
    have hsat : strIn q command = true := by simpa using List.find?_some hf
    refine ⟨?_, ?_, h3, fun hall => ?_⟩
    · exact ⟨fun _ => ⟨q, hmem, (strIn_correct q command).mp hsat⟩,
        fun _ => ⟨_, by rw [block_dangerous_bash_on_bash, hf]⟩⟩
    · intro r hr
      rw [block_dangerous_bash_on_bash, hf] at hr
      simp only [HookDecision.deny.injEq] at hr
      exact ⟨q, hmem, (strIn_correct q command).mp hsat, hr.symm⟩
    · exact absurd ((strIn_correct q command).mp hsat) (hall q hmem)

/-- Witness for C7: a command wrapping `"rm -rf /"` in surrounding text is
denied. -/
theorem C7_command_filter_witness :
    ∃ r, block_dangerous_bash ("Bash").data
        ((("echo ").data ++ ("rm -rf /").data ++ (" done").data)) = .deny r :=
  (C7_command_filter ("ls").data ("echo ").data (" done").data).2.2.1

/-- C9: the permission handler allows every tool other than Write and Edit
unconditionally, returning the input unchanged; a Bash command is never
checked against the docs-root boundary or the sensitive-substring list,
only against the dangerous-pattern denylist, which passes any command
containing none of the fixed patterns. -/
theorem C9_non_write_tools_unfiltered (docs tool : List Char)
    (input : List (List Char × List Char)) (command : List Char)
    (h1 : tool ≠ ("Write").data) (h2 : tool ≠ ("Edit").data) :
    can_use_tool docs tool input = .allow input ∧
    can_use_tool docs ("Bash").data
        [(("command").data, ("echo secret-text > /etc/shadow").data)] =
      .allow [(("command").data, ("echo secret-text > /etc/shadow").data)] ∧
    ((∀ p ∈ DANGEROUS_PATTERNS, ¬ p <:+: command) →
      block_dangerous_bash ("Bash").data command = .noOpinion) ∧
    block_dangerous_bash ("Bash").data
        (("echo secret-text > /etc/shadow").data) = .noOpinion := by
  refine ⟨?_, rfl, fun h => block_dangerous_bash_noOpinion_of_clean command h,
    by decide⟩
  unfold can_use_tool
  rw [if_neg (fun h => h.elim h1 h2)]

/-- Witness for C9: a Bash command that rewrites a path far outside the
docs root — and even contains a dangerous-looking fragment — is allowed by
the permission handler. -/
theorem C9_non_write_tools_unfiltered_witness :
    can_use_tool ("/d").data ("Bash").data
        [(("command").data, ("rm -rf /tmp/x").data)] =
      .allow [(("command").data, ("rm -rf /tmp/x").data)] :=
  (C9_non_write_tools_unfiltered ("/d").data ("Bash").data
    [(("command").data, ("rm -rf /tmp/x").data)] [] (by decide) (by decide)).1

/-- C8: the branch name is deterministic apart from its trailing timestamp
(it always decomposes as a stem independent of the timestamp, a hyphen,
and the decimal timestamp); the context `"We migrated from pip to uv!!"`
slugs to `we-migrated-from-pip-to-uv` under the `agent/docs/` prefix; with
no context the slug joins up to the first three doc-file basenames with
their extension stripped, and falls back to `update` when no files are
given. -/
theorem C8_branch_name (ctx : Option (List Char)) (files : List (List Char)) (ts : Nat) :
    build_branch_name ctx files ts = branchStem ctx files ++ ("-").data ++ natChars ts ∧
    contextSlug (("We migrated from pip to uv!!").data) =
      ("we-migrated-from-pip-to-uv").data ∧
    build_branch_name (some (("We migrated from pip to uv!!").data)) files ts =
      ("agent/docs/we-migrated-from-pip-to-uv-").data ++ natChars ts ∧
    fileSlug [("docs/getting-started.md").data, ("guide.rst").data] =
      ("getting-started-guide").data ∧
    fileSlug [] = ("update").data ∧
    build_branch_name none [] ts = ("agent/docs/update-").data ++ natChars ts := by
  have hshape : ∀ (c : Option (List Char)) (f : List (List Char)),
      build_branch_name c f ts = branchStem c f ++ ("-").data ++ natChars ts := by
    intro c f
    unfold build_branch_name branchStem
    by_cases hc : (c.getD []) ≠ []
    · rw [if_pos hc, if_pos hc]
    · rw [if_neg hc, if_neg hc]
  refine ⟨hshape ctx files, by decide, ?_, by decide, by decide, ?_⟩
  · have hb : branchStem (some (("We migrated from pip to uv!!").data)) files =
        ("agent/docs/we-migrated-from-pip-to-uv").data := by
      unfold branchStem
      rw [if_pos (by decide)]
      decide
    rw [hshape, hb]
    have h2 : (("agent/docs/we-migrated-from-pip-to-uv").data ++ ("-").data) =
        ("agent/docs/we-migrated-from-pip-to-uv-").data := by decide
    rw [← h2, List.append_assoc]
  · rw [hshape]
    have hb2 : branchStem none [] ++ ("-").data = ("agent/docs/update-").data := by decide
    rw [← hb2, List.append_assoc]

theorem exitCodeOf_cases (e : SDKErr) :
    exitCodeOf e = 1 ∨ exitCodeOf e = 2 ∨ exitCodeOf e = 3 ∨ exitCodeOf e = 4 := by
  cases e <;> simp [exitCodeOf]

theorem final_status_of_cases (v : List Char) :
    final_status_of v = ("verified").data ∨ final_status_of v = ("best_effort").data := by
  unfold final_status_of
  split
  · exact Or.inl rfl
  · exact Or.inr rfl

/-- C10: whenever `run_pipeline` returns a `PipelineResult`, its
`final_status` is `verified` or `best_effort` — the declared third value
`failed` is never produced; every fatal engine/transport/parse error
instead ends the run via `SystemExit` with one of the exit codes 1, 2, 3,
4 before any `PipelineResult` is constructed. -/
theorem C10_terminal_status (dry_run create_pr : Bool) (maxIter : Nat)
    (resp : Nat → Except SDKErr (List Char)) :
    (∀ r q, run_pipelineE dry_run create_pr maxIter resp = .ok (r, q) →
      r.final_status = ("verified").data ∨ r.final_status = ("best_effort").data) ∧
    (∀ c q, run_pipelineE dry_run create_pr maxIter resp = .error (c, q) →
      c = 1 ∨ c = 2 ∨ c = 3 ∨ c = 4) := by
  constructor
  · intro r q h
    unfold run_pipelineE at h
    repeat' split at h
    all_goals simp at h
    all_goals
      obtain ⟨h1, h2⟩ := h
    all_goals
      subst h1
    all_goals
      exact final_status_of_cases _
  · intro c q h
    unfold run_pipelineE at h
    repeat' split at h
    all_goals simp at h
    all_goals
      obtain ⟨h1, h2⟩ := h
    all_goals
      subst h1
    all_goals
      exact exitCodeOf_cases _

/-- Engine-response stream for the C10 witness: analyze, branch and update
collect plain text, the first verify collects a passing report, and the
commit query collects a diff. -/
def c10resp : Nat → Except SDKErr (List Char) :=
  fun i => if i = 3 then .ok (("\"overall_status\": \"pass\"").data)
    else .ok (("text").data)

/-- Witness for C10: a run whose first verify passes returns a result whose
final status is one of the two produced values. -/
theorem C10_terminal_status_witness :
    (⟨("text").data, ("text").data, ("\"overall_status\": \"pass\"").data,
        ("text").data, 1, ("verified").data⟩ : PipelineResultM).final_status =
        ("verified").data ∨
      (⟨("text").data, ("text").data, ("\"overall_status\": \"pass\"").data,
        ("text").data, 1, ("verified").data⟩ : PipelineResultM).final_status =
        ("best_effort").data :=
  (C10_terminal_status false false 1 c10resp).1
    ⟨("text").data, ("text").data, ("\"overall_status\": \"pass\"").data,
      ("text").data, 1, ("verified").data⟩ 5 (by rfl)

/-- Engine-response stream exhibiting the C5 code bug: analyze, branch and
update succeed, then the verify phase dies with a `ProcessError`. -/
def c5resp : Nat → Except SDKErr (List Char) :=
  fun i => if i = 3 then .error .processError else .ok (("ok-text").data)

/-- C5 (code bug): with `max_iterations = 1` and a fatal `ProcessError`
during the verify phase — after the verification environment would have
been set up — the run aborts with `SystemExit(2)` having issued exactly 4
queries (analyze, branch, update, verify): no further query of any kind is
issued after the failure, and `run_pipeline` contains no cleanup path, so
no `teardown_verification_env` release can be invoked by the orchestrator
on this exit path.  Release is requested only inside the verify prompt
itself, which the dead engine never completes. -/
theorem C5_no_release_on_fatal_error :
    run_pipelineE false false 1 c5resp = .error (2, 4) := rfl

end DocUpdater
